import Mathlib

/-!
Verification development for the RKS backend's tiered natural-language
search (src/controllers/searchController.js, the debugging revision whose
line numbers the claims cite: `naturalSearch` lines 172-389,
`generateAllSearchPatterns` lines 392-429, `escapeRegex` lines 432-434,
`advancedSearch` lines 437-538).

Strings are modelled as `List Char`.  The MongoDB `$regex` operator with
`$options: 'i'` is modelled by a small verified engine for the fragment of
the ECMAScript regex syntax that the resolver's own patterns exercise:
literal characters, backslash escapes, `.`, a postfix `*` on a single atom,
and top-level alternation `|`.  Syntax outside this fragment (groups,
classes, `+`, `?`, quantifier braces, anchors) makes the parse fail, which
the embedding treats like an invalid pattern rejected by the store.
Escaped patterns (the output of `escapeRegex`) always lie inside the
fragment, so Tier 2 / Tier 3 matching is modelled exactly.
-/

/-- The characters escaped by `escapeRegex` (the JS character class
`[.*+?^$\x7b\x7d()|[\]\\]` at line 433). -/
def regexSpecialChars : List Char :=
  ['.', '*', '+', '?', '^', '$', '\x7b', '\x7d', '(', ')', '|', '[', ']', '\\']

/-- `escapeRegex` (lines 432-434): each special character is prefixed with a
backslash (`text.replace(/[.*+?^$\x7b\x7d()|[\]\\]/g, '\\$&')`). -/
def escapeRegex (text : List Char) : List Char :=
  text.flatMap fun c => if c ∈ regexSpecialChars then ['\\', c] else [c]

/-- Character comparison used by the matcher: `ci = true` models the
`$options: 'i'` flag (case-insensitive), `ci = false` is plain equality. -/
def chEq (ci : Bool) (c d : Char) : Bool :=
  if ci then c.toLower == d.toLower else c == d

/-- A single regex atom of the modelled fragment. -/
inductive RAtom where
  | lit (c : Char)
  | dot
deriving DecidableEq, Repr

/-- One item of a regex sequence: an atom matched once, or starred. -/
inductive RItem where
  | once (a : RAtom)
  | star (a : RAtom)
deriving DecidableEq, Repr

/-- Does an atom match one character (under flag `ci`)? -/
def matchAtom (ci : Bool) : RAtom → Char → Bool
  | .lit c, d => chEq ci c d
  | .dot, _ => true

/-- The suffixes of `s` reachable by letting a starred atom consume a
(possibly empty) run of matching characters. -/
def stripStar (ci : Bool) (a : RAtom) : List Char → List (List Char)
  | [] => [[]]
  | c :: cs => (c :: cs) :: (if matchAtom ci a c then stripStar ci a cs else [])

/-- Does the item sequence match some prefix of `s` (i.e. the pattern
matches at this position of the subject)?  A starred atom tries every
run length (greedy or not is irrelevant for a boolean test). -/
def matchHere (ci : Bool) : List RItem → List Char → Bool
  | [], _ => true
  | .once _ :: _, [] => false
  | .once a :: is, c :: cs => matchAtom ci a c && matchHere ci is cs
  | .star a :: is, s => (stripStar ci a s).any fun t => matchHere ci is t

/-- Unanchored search: does the item sequence match at some position of `s`? -/
def regexFound (ci : Bool) (r : List RItem) : List Char → Bool
  | [] => matchHere ci r []
  | c :: cs => matchHere ci r (c :: cs) || regexFound ci r cs

/-- A parsed pattern: a top-level alternation of item sequences. -/
abbrev RegexAlt : Type := List (List RItem)

/-- An alternation matches when some branch matches. -/
def regexFoundAlt (ci : Bool) (alt : RegexAlt) (s : List Char) : Bool :=
  alt.any fun r => regexFound ci r s

/-- Characters of regex syntax outside the modelled fragment; a pattern
containing one of them unescaped fails to parse. -/
def regexUnsupported : List Char :=
  ['+', '?', '(', ')', '[', ']', '\x7b', '\x7d', '^', '$']

/-- Parse one top-level alternation branch into an item sequence: one atom
(plain char, `.`, or backslash escape), an optional postfix `*`, repeat. -/
def parseSeq : List Char → Option (List RItem)
  | [] => some []
  | '\\' :: [] => none
  | '\\' :: d :: '*' :: rest => (parseSeq rest).map fun items => RItem.star (RAtom.lit d) :: items
  | '\\' :: d :: rest => (parseSeq rest).map fun items => RItem.once (RAtom.lit d) :: items
  | c :: '*' :: rest =>
      if c ∈ regexUnsupported ∨ c = '*' then none
      else (parseSeq rest).map fun items =>
        RItem.star (if c = '.' then RAtom.dot else RAtom.lit c) :: items
  | c :: rest =>
      if c ∈ regexUnsupported ∨ c = '*' then none
      else (parseSeq rest).map fun items =>
        RItem.once (if c = '.' then RAtom.dot else RAtom.lit c) :: items

/-- Prepend characters onto the first branch of a split (helper for
`splitPipe`). -/
def consTop (p : List Char) : List (List Char) → List (List Char)
  | [] => [p]
  | w :: ws => (p ++ w) :: ws

/-- Split a pattern at top-level unescaped `|` characters. -/
def splitPipe : List Char → List (List Char)
  | [] => [[]]
  | c :: rest =>
      if c = '\\' then
        match rest with
        | [] => [['\\']]
        | d :: rest' => consTop ['\\', d] (splitPipe rest')
      else if c = '|' then [] :: splitPipe rest
      else consTop [c] (splitPipe rest)

/-- Parse a full pattern: split at top-level `|`, parse every branch. -/
def parseRegex (s : List Char) : Option RegexAlt :=
  (splitPipe s).mapM parseSeq

/-- Run a pattern against a subject (`false` when the pattern does not
parse; callers below only reach this with parseable patterns). -/
def regexTest (ci : Bool) (pat s : List Char) : Bool :=
  match parseRegex pat with
  | some alt => regexFoundAlt ci alt s
  | none => false

/-- `p` is a prefix of `s` up to the character equivalence `eqv`. -/
def prefixBy (eqv : Char → Char → Bool) : List Char → List Char → Bool
  | [], _ => true
  | _ :: _, [] => false
  | a :: p, b :: s => eqv a b && prefixBy eqv p s

/-- `p` occurs inside `s` up to the character equivalence `eqv`. -/
def substringBy (eqv : Char → Char → Bool) : List Char → List Char → Bool
  | p, [] => prefixBy eqv p []
  | p, c :: s => prefixBy eqv p (c :: s) || substringBy eqv p s

/-- The item sequence that matches exactly the literal string `p`. -/
def literalItems (p : List Char) : List RItem :=
  p.map fun c => RItem.once (RAtom.lit c)

/-! ## String helpers (JS built-ins used by the controller) -/

/-- `String.prototype.toLowerCase` (ASCII-range model via `Char.toLower`). -/
def toLowerList (l : List Char) : List Char := l.map Char.toLower

/-- A whitespace character as matched by the JS `\s` class (common cases). -/
def isWsChar (c : Char) : Bool := c.isWhitespace

/-- `str.replace(/\s+/g, '')`: removing every whitespace run is removing
every whitespace character. -/
def stripWs (l : List Char) : List Char := l.filter fun c => !isWsChar c

/-- `!query || query.trim() === ''` (lines 179): the query is falsy or
all-whitespace. -/
def jsBlank (l : List Char) : Bool := l.all isWsChar

/-- `str.split(' ')`: split at every single space, keeping empty pieces. -/
def splitSp : List Char → List (List Char)
  | [] => [[]]
  | c :: rest =>
      match splitSp rest with
      | [] => [[c]]
      | w :: ws => if c = ' ' then [] :: w :: ws else (c :: w) :: ws

/-- `arr.join(' ')`. -/
def joinSp : List (List Char) → List Char
  | [] => []
  | [w] => w
  | w :: ws => w ++ ' ' :: joinSp ws

/-- `arr.join('|')` (advancedSearch keyword alternation, line 464). -/
def joinPipe : List (List Char) → List Char
  | [] => []
  | [w] => w
  | w :: ws => w ++ '|' :: joinPipe ws

/-! ## The record store -/

/-- One stored record: the fields of the mongoose `Record` schema (in
src/unnamed/part_002) that the search controller reads.  `owner` models the
`user` field (an ObjectId), `rtype` the `type` field (a Lean keyword);
`createdAt` is a `Date` path, so query bounds on it are cast by the store. -/
structure StoreRecord where
  owner : Nat
  rtype : String
  title : List Char
  geminiSummary : List Char
  content : List Char
  tags : List (List Char)
  createdAt : Int
deriving DecidableEq, Repr

/-- `SEARCH_DEFAULTS.LIMIT` from the constants module (staged in
src/utils/fileValidators.js: `SEARCH_DEFAULTS: { LIMIT: 20, PAGE: 1,
SORT_BY: 'createdAt', SORT_ORDER: -1 }`). -/
def SEARCH_DEFAULTS_LIMIT : Nat := 20

/-- `SEARCH_DEFAULTS.PAGE` from the same constants module. -/
def SEARCH_DEFAULTS_PAGE : Nat := 1

/-- Insert a record into a list sorted by `le` (insertion sort is used as
the model of the store's sort; only the output ordering matters). -/
def insertSorted (le : StoreRecord → StoreRecord → Bool) (r : StoreRecord) :
    List StoreRecord → List StoreRecord
  | [] => [r]
  | x :: xs => if le r x then r :: x :: xs else x :: insertSorted le r xs

/-- Sort a record list by the Boolean relation `le`. -/
def sortRecords (le : StoreRecord → StoreRecord → Bool) : List StoreRecord → List StoreRecord
  | [] => []
  | r :: rs => insertSorted le r (sortRecords le rs)

/-- `.sort({ createdAt: -1 })`: newest first. -/
def sortCreatedDesc (l : List StoreRecord) : List StoreRecord :=
  sortRecords (fun a b => decide (b.createdAt ≤ a.createdAt)) l

/-- `.limit(n)` on a Mongo cursor: `limit(0)` means NO limit. -/
def jsLimit (n : Nat) (l : List StoreRecord) : List StoreRecord :=
  if n = 0 then l else l.take n

/-- `Record.find(q).sort({ createdAt: -1 }).limit(SEARCH_DEFAULTS.LIMIT)`. -/
def runLimited (pred : StoreRecord → Bool) (store : List StoreRecord) : List StoreRecord :=
  jsLimit SEARCH_DEFAULTS_LIMIT (sortCreatedDesc (store.filter pred))

/-! ## JS date values -/

/-- A JS `Date`: valid (milliseconds) or an Invalid Date.  `new Date(str)`
never throws; an unparseable string yields an Invalid Date.  Date strings
are represented by their parse result (`some ms` / `none`), since the
parser itself is a JS built-in outside the repository. -/
inductive JsDate where
  | valid (ms : Int)
  | invalid
deriving DecidableEq, Repr

/-- `new Date(str)` on a string whose JS parse result is `p`. -/
def jsNewDate (p : Option Int) : JsDate :=
  match p with
  | some ms => JsDate.valid ms
  | none => JsDate.invalid

/-- `createdAt >= bound` for an optional `$gte` bound (the Invalid-Date arm
is for totality only: the store rejects such a bound at cast time, see
`tier2DateInvalid` / `advDateInvalid`). -/
def dateGeOk (bound : Option JsDate) (t : Int) : Bool :=
  match bound with
  | none => true
  | some (JsDate.valid ms) => decide (ms ≤ t)
  | some JsDate.invalid => false

/-- `createdAt <= bound` for an optional `$lte` bound. -/
def dateLeOk (bound : Option JsDate) (t : Int) : Bool :=
  match bound with
  | none => true
  | some (JsDate.valid ms) => decide (t ≤ ms)
  | some JsDate.invalid => false

/-! ## naturalSearch (lines 172-389) -/

/-- Oracle date hints: each bound, when present, carries the JS parse of the
string Gemini supplied (`none` = a malformed date string). -/
structure DateFilters where
  fromDate : Option (Option Int)
  toDate : Option (Option Int)
deriving DecidableEq, Repr

/-- The structured hints `geminiService.processSearchQuery` resolves with. -/
structure SearchParams where
  keywords : List (List Char)
  types : List String
  dateFilters : Option DateFilters
deriving DecidableEq, Repr

/-- The date sub-query built at lines 287-308: each present bound is
assigned `new Date(...)` — the `try/catch` around the constructor never
fires because `new Date(str)` does not throw, so a malformed string puts
an Invalid Date into the bound instead of omitting it. -/
structure DateQuery where
  gte : Option JsDate
  lte : Option JsDate
deriving DecidableEq, Repr

/-- Build the `dateQuery` object of lines 288-304. -/
def buildDateQuery (df : DateFilters) : DateQuery :=
  { gte := df.fromDate.map jsNewDate, lte := df.toDate.map jsNewDate }

/-- Is an optional date bound an Invalid Date? -/
def isInvalidDate : Option JsDate → Bool
  | some JsDate.invalid => true
  | _ => false

/-- Does the Tier 2 date filter hold an Invalid Date bound?  The record
schema types `createdAt` as `Date`, so `Record.find` casts the bound and
rejects an Invalid Date (CastError); the rejection is raised inside the
`try` of lines 225-332 and lands in the `catch (geminiError)` at line 333,
i.e. Tier 3 runs. -/
def tier2DateInvalid (sp : SearchParams) : Bool :=
  match sp.dateFilters with
  | none => false
  | some df => isInvalidDate (buildDateQuery df).gte || isInvalidDate (buildDateQuery df).lte

/-- Does a record pass the optional date filter of lines 287-308? -/
def dateFilterOk (df : Option DateFilters) (t : Int) : Bool :=
  match df with
  | none => true
  | some d => dateGeOk (buildDateQuery d).gte t && dateLeOk (buildDateQuery d).lte t

/-- Does a record pass the optional type filter (`type: { $in: types }`)? -/
def typeFilterOk (types : List String) (rt : String) : Bool :=
  if types.isEmpty then true else types.contains rt

/-- Tier 1 `$or` branch (lines 194-199): the RAW query, parsed as a regex,
run case-insensitively over title, geminiSummary, content and tags. -/
def directFieldMatch (alt : RegexAlt) (r : StoreRecord) : Bool :=
  regexFoundAlt true alt r.title || regexFoundAlt true alt r.geminiSummary ||
    regexFoundAlt true alt r.content || r.tags.any (regexFoundAlt true alt)

/-- The full Tier 1 filter (lines 192-200): owner scope AND the `$or`. -/
def directMatch (user : Nat) (alt : RegexAlt) (r : StoreRecord) : Bool :=
  r.owner == user && directFieldMatch alt r

/-- One escaped pattern run over the four text fields (lines 271-276 and
350-355): `$regex: this.escapeRegex(pattern), $options: 'i'`. -/
def escapedTermMatch (term : List Char) (r : StoreRecord) : Bool :=
  regexTest true (escapeRegex term) r.title ||
    regexTest true (escapeRegex term) r.geminiSummary ||
    regexTest true (escapeRegex term) r.content ||
    r.tags.any (regexTest true (escapeRegex term))

/-- Tier 2 keyword expansion (lines 238-257): the keyword as-is; when it
contains a space, its no-space variant and (when split(' ') yields several
words) the individual words. -/
def expandKeyword (kw : List Char) : List (List Char) :=
  [kw] ++
    (if kw.contains ' ' then
      [stripWs kw] ++ (let ws := splitSp kw; if 1 < ws.length then ws else [])
    else [])

/-- The deduplicated Tier 2 pattern set `allVariations` (lines 232-267):
keyword expansions, or the query (plus no-space variant) when the oracle
returned no keywords. -/
def tier2Patterns (query : List Char) (sp : SearchParams) : List (List Char) :=
  (if sp.keywords.isEmpty then
    query :: (if query.contains ' ' then [stripWs query] else [])
  else
    sp.keywords.flatMap expandKeyword).dedup

/-- The full Tier 2 filter `enhancedQuery` (lines 231-308). -/
def tier2Match (user : Nat) (query : List Char) (sp : SearchParams) (r : StoreRecord) : Bool :=
  r.owner == user && (tier2Patterns query sp).any (escapedTermMatch · r) &&
    typeFilterOk sp.types r.rtype && dateFilterOk sp.dateFilters r.createdAt

/-- The filtered word list both the code and the claim use: words of the
query (split at single spaces) longer than 2 characters, lowercased. -/
def queryWords (query : List Char) : List (List Char) :=
  ((splitSp query).filter fun w => 2 < w.length).map toLowerList

/-- `generateAllSearchPatterns` (lines 392-429), with JS `Set` insertion
modelled as deduplicated list concatenation. -/
def generateAllSearchPatterns (query : List Char) : List (List Char) :=
  let base := [query, toLowerList query]
  let base2 := base ++
    (if query.contains ' ' then [stripWs query, stripWs (toLowerList query)] else [])
  let words := queryWords query
  let phrases :=
    if 1 < words.length then
      (List.range words.length).flatMap fun i =>
        (List.range (words.length - i)).flatMap fun k =>
          let phrase := joinSp ((words.drop i).take (k + 1))
          if 3 < phrase.length then [phrase, stripWs phrase] else []
    else []
  (base2 ++ words ++ phrases).dedup

/-- The full Tier 3 filter `fallbackQuery` (lines 340-357). -/
def tier3Match (user : Nat) (query : List Char) (r : StoreRecord) : Bool :=
  r.owner == user && (generateAllSearchPatterns query).any (escapedTermMatch · r)

/-- The records Tier 3 returns (lines 360-362). -/
def tier3Records (store : List StoreRecord) (user : Nat) (query : List Char) : List StoreRecord :=
  runLimited (tier3Match user query) store

/-- The JSON body `naturalSearch` answers with (fields actually read by the
claims; `searchType` is empty on the 400/500 paths, which carry no data). -/
structure NLResponse where
  success : Bool
  searchType : String
  records : List StoreRecord
  count : Nat
  processedQuery : Option SearchParams
deriving DecidableEq, Repr

/-- Execution trace of one resolution, read off the structure of the code:
which collaborators were reached. -/
structure NLTrace where
  oracleCalled : Bool
  tier3Attempted : Bool
deriving DecidableEq, Repr

/-- The oracle call: resolves with hints or rejects with an error message. -/
abbrev OracleOutcome : Type := Except String SearchParams

/-- `naturalSearch` (lines 172-389).  The oracle outcome is passed as a
value: the code awaits `geminiService.processSearchQuery` exactly once, and
only after Tier 1 returned zero records.  An unparseable Tier 1 pattern is
the store rejecting the query, i.e. the outer catch (lines 377-388). -/
def naturalSearch (store : List StoreRecord) (user : Nat) (query : List Char)
    (oracle : OracleOutcome) : NLResponse × NLTrace :=
  if jsBlank query then
    ({ success := false, searchType := "", records := [], count := 0, processedQuery := none },
     { oracleCalled := false, tier3Attempted := false })
  else
    match parseRegex query with
    | none =>
        ({ success := false, searchType := "", records := [], count := 0, processedQuery := none },
         { oracleCalled := false, tier3Attempted := false })
    | some alt =>
        let directResults := runLimited (directMatch user alt) store
        if 0 < directResults.length then
          ({ success := true, searchType := "direct", records := directResults,
             count := directResults.length, processedQuery := none },
           { oracleCalled := false, tier3Attempted := false })
        else
          match oracle with
          | Except.ok sp =>
              if tier2DateInvalid sp then
                let fallbackResults := tier3Records store user query
                ({ success := true, searchType := "fallback", records := fallbackResults,
                   count := fallbackResults.length, processedQuery := none },
                 { oracleCalled := true, tier3Attempted := true })
              else
                let enhancedResults := runLimited (tier2Match user query sp) store
                ({ success := true, searchType := "enhanced", records := enhancedResults,
                   count := enhancedResults.length, processedQuery := some sp },
                 { oracleCalled := true, tier3Attempted := false })
          | Except.error _ =>
              let fallbackResults := tier3Records store user query
              ({ success := true, searchType := "fallback", records := fallbackResults,
                 count := fallbackResults.length, processedQuery := none },
               { oracleCalled := true, tier3Attempted := true })

/-! ## advancedSearch (lines 437-538) -/

/-- A JS number as produced by `Math.ceil(total / limit)`: a natural,
`Infinity` (n/0 with n>0) or `NaN` (0/0). -/
inductive JsNum where
  | finite (n : Nat)
  | infty
  | nan
deriving DecidableEq, Repr

/-- `Math.ceil(total / limit)` on naturals. -/
def jsCeilDiv (total limit : Nat) : JsNum :=
  if limit = 0 then (if total = 0 then JsNum.nan else JsNum.infty)
  else JsNum.finite ((total + limit - 1) / limit)

/-- The advancedSearch request body (lines 442-452); `none` = field absent,
so the destructuring default applies.  Date strings are carried as their JS
parse results, as in `DateFilters`. -/
structure AdvParams where
  keywords : List (List Char)
  types : List String
  dateFrom : Option (Option Int)
  dateTo : Option (Option Int)
  tags : List (List Char)
  limit : Option Nat
  page : Option Nat
  sortBy : String
  sortOrder : Int
deriving DecidableEq, Repr

/-- The keyword alternation regex `keywords.join('|')` (lines 463-467),
parsed; `some []` when there are no keywords (no `$or` in the query). -/
def advKwAlt (p : AdvParams) : Option RegexAlt :=
  if p.keywords.isEmpty then some [] else parseRegex (joinPipe p.keywords)

/-- The advancedSearch store filter (lines 459-494): owner scope, keyword
`$or` over title/geminiSummary/content (NOT tags), `type $in`, date range,
`tags $all`. -/
def advMatch (user : Nat) (p : AdvParams) (alt : RegexAlt) (r : StoreRecord) : Bool :=
  r.owner == user &&
    (if p.keywords.isEmpty then true
     else regexFoundAlt true alt r.title || regexFoundAlt true alt r.geminiSummary ||
       regexFoundAlt true alt r.content) &&
    typeFilterOk p.types r.rtype &&
    dateGeOk (p.dateFrom.map jsNewDate) r.createdAt &&
    dateLeOk (p.dateTo.map jsNewDate) r.createdAt &&
    p.tags.all (r.tags.contains ·)

/-- Sort key for `.sort({ [sortBy]: parseInt(sortOrder) })`; only the
default `createdAt` key (the one the spec fixes) is interpreted, other
field names leave the order unchanged. -/
def advSortKey (sortBy : String) (r : StoreRecord) : Int :=
  if sortBy = "createdAt" then r.createdAt else 0

/-- Apply the requested sort (ascending for nonnegative order). -/
def advSort (sortBy : String) (sortOrder : Int) (l : List StoreRecord) : List StoreRecord :=
  sortRecords (fun a b =>
    if sortOrder < 0 then decide (advSortKey sortBy b ≤ advSortKey sortBy a)
    else decide (advSortKey sortBy a ≤ advSortKey sortBy b)) l

/-- The pagination descriptor (lines 515-521). -/
structure Pagination where
  currentPage : Nat
  totalPages : JsNum
  totalRecords : Nat
  hasNextPage : Bool
  hasPreviousPage : Bool
deriving DecidableEq, Repr

/-- The `data` object of a successful advancedSearch response. -/
structure AdvData where
  records : List StoreRecord
  pagination : Pagination
deriving DecidableEq, Repr

/-- advancedSearch response: `data` is absent on the 500 path (an invalid
keyword regex rejected by the store). -/
structure AdvResponse where
  success : Bool
  data : Option AdvData
deriving DecidableEq, Repr

/-- Does the advancedSearch request carry a date string that parses to an
Invalid Date?  As in Tier 2, the store rejects the cast at `Record.find`,
and here the rejection reaches the handler's own catch: a 500 error. -/
def advDateInvalid (p : AdvParams) : Bool :=
  isInvalidDate (p.dateFrom.map jsNewDate) || isInvalidDate (p.dateTo.map jsNewDate)

/-- The successful branch of `advancedSearch` (lines 442-530) for a parsed
keyword alternation `alt`. -/
def advData (store : List StoreRecord) (user : Nat) (p : AdvParams) (alt : RegexAlt) : AdvData :=
  let limit := p.limit.getD SEARCH_DEFAULTS_LIMIT
  let page := p.page.getD SEARCH_DEFAULTS_PAGE
  let matching := store.filter (advMatch user p alt)
  let skip := (page - 1) * limit
  let records := jsLimit limit ((advSort p.sortBy p.sortOrder matching).drop skip)
  let total := matching.length
  { records := records,
    pagination :=
      { currentPage := page,
        totalPages := jsCeilDiv total limit,
        totalRecords := total,
        hasNextPage := decide (skip + records.length < total),
        hasPreviousPage := decide (1 < page) } }

/-- `advancedSearch` (lines 437-538); the 500 path covers both an invalid
keyword regex and an Invalid Date bound rejected by the store. -/
def advancedSearch (store : List StoreRecord) (user : Nat) (p : AdvParams) : AdvResponse :=
  match advKwAlt p with
  | none => { success := false, data := none }
  | some alt =>
      if advDateInvalid p then { success := false, data := none }
      else { success := true, data := some (advData store user p alt) }

/-! ## Engine correctness: escaped patterns are literal-substring tests -/

theorem escapeRegex_cons (c : Char) (t : List Char) :
    escapeRegex (c :: t) =
      (if c ∈ regexSpecialChars then ['\\', c] else [c]) ++ escapeRegex t := by
  simp only [escapeRegex, List.flatMap_cons]

theorem matchHere_literal (ci : Bool) (p : List Char) (s : List Char) :
    matchHere ci (literalItems p) s = prefixBy (chEq ci) p s := by
  induction p generalizing s with
  | nil => cases s <;> simp [literalItems, matchHere, prefixBy]
  | cons a p ih =>
      cases s with
      | nil => simp [literalItems, matchHere, prefixBy]
      | cons b s =>
          simp only [literalItems] at ih ⊢
          simp [matchHere, prefixBy, matchAtom, ih]

theorem regexFound_literal (ci : Bool) (p : List Char) (s : List Char) :
    regexFound ci (literalItems p) s = substringBy (chEq ci) p s := by
  induction s with
  | nil => simp [regexFound, substringBy, matchHere_literal]
  | cons c s ih => simp [regexFound, substringBy, matchHere_literal, ih]

theorem escapeRegex_head_ne_star (t : List Char) (e : Char) (rest : List Char)
    (h : escapeRegex t = e :: rest) : e ≠ '*' := by
  cases t with
  | nil => simp [escapeRegex] at h
  | cons c t =>
      rw [escapeRegex_cons] at h
      by_cases hc : c ∈ regexSpecialChars
      · rw [if_pos hc] at h
        intro he
        injection h with h1 _
        rw [he] at h1
        exact absurd h1.symm (by decide)
      · rw [if_neg hc] at h
        injection h with h1 _
        intro he
        exact hc (by rw [h1, he]; decide)

theorem escapeRegex_eq_nil {t : List Char} (he : escapeRegex t = []) : t = [] := by
  cases t with
  | nil => rfl
  | cons d t2 =>
      rw [escapeRegex_cons] at he
      by_cases hd : d ∈ regexSpecialChars <;> simp [hd] at he

theorem parseSeq_cons_noStar (c : Char) (e : Char) (E : List Char)
    (h1 : c ≠ '\\') (h2 : c ∉ regexUnsupported) (h3 : c ≠ '*') (hne : e ≠ '*') :
    parseSeq (c :: e :: E) =
      (parseSeq (e :: E)).map fun items =>
        RItem.once (if c = '.' then RAtom.dot else RAtom.lit c) :: items := by
  rw [parseSeq.eq_def]
  split
  · rename_i x heq
    exact absurd heq (by simp)
  · rename_i x heq
    injection heq with ha _
    exact absurd ha h1
  · rename_i x d rest heq
    injection heq with ha _
    exact absurd ha h1
  · rename_i x d rest hns heq
    injection heq with ha _
    exact absurd ha h1
  · rename_i x c2 rest hno1 hno2 heq
    injection heq with ha hb
    injection hb with hb1 _
    exact absurd hb1 hne
  · rename_i x c2 rest h6a h6b h6c h6d heq
    injection heq with ha hb
    subst ha
    subst hb
    rw [if_neg (not_or.mpr ⟨h2, h3⟩)]

theorem parseSeq_cons_escape (d : Char) (e : Char) (E : List Char) (hne : e ≠ '*') :
    parseSeq ('\\' :: d :: e :: E) =
      (parseSeq (e :: E)).map fun items => RItem.once (RAtom.lit d) :: items := by
  rw [parseSeq.eq_def]
  split
  · rename_i x heq
    exact absurd heq (by simp)
  · rename_i x heq
    exact absurd heq (by simp)
  · rename_i x d2 rest heq
    injection heq with _ hb
    injection hb with hb1 hb2
    injection hb2 with hb3 _
    exact absurd hb3 hne
  · rename_i x d2 rest hns heq
    injection heq with _ hb
    injection hb with hb1 hb2
    subst hb1
    subst hb2
    rfl
  · rename_i x c2 rest hno1 hno2 heq
    injection heq with ha _
    exact (hno2 ha.symm).elim
  · rename_i x c2 rest h6a h6b h6c h6d heq
    injection heq with ha hb
    exact (h6c d (e :: E) ha.symm hb.symm).elim

theorem parseSeq_single (c : Char)
    (h1 : c ≠ '\\') (h2 : c ∉ regexUnsupported) (h3 : c ≠ '*') :
    parseSeq [c] = some [RItem.once (if c = '.' then RAtom.dot else RAtom.lit c)] := by
  rw [parseSeq.eq_def]
  split
  · rename_i x heq
    exact absurd heq (by simp)
  · rename_i x heq
    injection heq with ha _
    exact absurd ha h1
  · rename_i x d rest heq
    injection heq with ha _
    exact absurd ha h1
  · rename_i x d rest hns heq
    injection heq with ha _
    exact absurd ha h1
  · rename_i x c2 rest hno1 hno2 heq
    injection heq with ha hb
    exact absurd hb (by simp)
  · rename_i x c2 rest h6a h6b h6c h6d heq
    injection heq with ha hb
    subst ha
    subst hb
    rw [if_neg (not_or.mpr ⟨h2, h3⟩)]
    rfl

theorem parseSeq_escape_pair (d : Char) :
    parseSeq ['\\', d] = some [RItem.once (RAtom.lit d)] := by
  rw [parseSeq.eq_def]
  split
  · rename_i x heq
    exact absurd heq (by simp)
  · rename_i x heq
    injection heq with _ hb
    exact absurd hb (by simp)
  · rename_i x d2 rest heq
    injection heq with _ hb
    injection hb with _ hb2
    exact absurd hb2 (by simp)
  · rename_i x d2 rest hns heq
    injection heq with _ hb
    injection hb with hb1 hb2
    subst hb1
    subst hb2
    rfl
  · rename_i x c2 rest hno1 hno2 heq
    injection heq with ha _
    exact (hno2 ha.symm).elim
  · rename_i x c2 rest h6a h6b h6c h6d heq
    injection heq with ha hb
    exact (h6c d [] ha.symm hb.symm).elim

theorem notSpecial_facts {c : Char} (hc : c ∉ regexSpecialChars) :
    c ≠ '\\' ∧ c ∉ regexUnsupported ∧ c ≠ '*' ∧ c ≠ '.' := by
  refine ⟨fun h => hc (by rw [h]; decide), fun h => hc ?_, fun h => hc (by rw [h]; decide),
    fun h => hc (by rw [h]; decide)⟩
  revert h
  show c ∈ regexUnsupported → c ∈ regexSpecialChars
  intro h
  fin_cases h <;> decide

theorem parseSeq_escape (s : List Char) :
    parseSeq (escapeRegex s) = some (literalItems s) := by
  induction s with
  | nil => rfl
  | cons c t ih =>
      rw [escapeRegex_cons]
      by_cases hc : c ∈ regexSpecialChars
      · rw [if_pos hc]
        cases he : escapeRegex t with
        | nil =>
            have ht := escapeRegex_eq_nil he
            subst ht
            show parseSeq ['\\', c] = some (literalItems [c])
            rw [parseSeq_escape_pair]
            rfl
        | cons e E =>
            have hne : e ≠ '*' := escapeRegex_head_ne_star t e E he
            show parseSeq ('\\' :: c :: e :: E) = some (literalItems (c :: t))
            rw [parseSeq_cons_escape c e E hne, ← he, ih]
            rfl
      · rw [if_neg hc]
        obtain ⟨h1, h2, h3, h4⟩ := notSpecial_facts hc
        cases he : escapeRegex t with
        | nil =>
            have ht := escapeRegex_eq_nil he
            subst ht
            show parseSeq [c] = some (literalItems [c])
            rw [parseSeq_single c h1 h2 h3, if_neg h4]
            rfl
        | cons e E =>
            have hne : e ≠ '*' := escapeRegex_head_ne_star t e E he
            show parseSeq (c :: e :: E) = some (literalItems (c :: t))
            rw [parseSeq_cons_noStar c e E h1 h2 h3 hne, ← he, ih, if_neg h4]
            rfl

theorem splitPipe_escape (s : List Char) :
    splitPipe (escapeRegex s) = [escapeRegex s] := by
  induction s with
  | nil => simp [escapeRegex, splitPipe]
  | cons c t ih =>
      rw [escapeRegex_cons]
      by_cases hc : c ∈ regexSpecialChars
      · rw [if_pos hc]
        show splitPipe ('\\' :: c :: escapeRegex t) = _
        rw [splitPipe.eq_def]
        simp only [reduceIte]
        rw [ih]
        rfl
      · rw [if_neg hc]
        have h1 : c ≠ '\\' := fun h => hc (by rw [h]; decide)
        have h2 : c ≠ '|' := fun h => hc (by rw [h]; decide)
        show splitPipe (c :: escapeRegex t) = _
        rw [splitPipe.eq_def]
        simp only [if_neg h1, if_neg h2]
        rw [ih]
        rfl

theorem parseRegex_escape (s : List Char) :
    parseRegex (escapeRegex s) = some [literalItems s] := by
  rw [parseRegex, splitPipe_escape]
  cases h : parseSeq (escapeRegex s) with
  | none => rw [parseSeq_escape] at h; exact absurd h (by simp)
  | some r =>
      rw [parseSeq_escape] at h
      injection h with h
      subst h
      simp [List.mapM, List.mapM.loop, parseSeq_escape]

/-- The central literal-matching fact: an escaped term, run through the
regex pipeline, tests exactly for the original term as a substring (up to
the case flag). -/
theorem regexTest_escape (ci : Bool) (p s : List Char) :
    regexTest ci (escapeRegex p) s = substringBy (chEq ci) p s := by
  rw [regexTest]
  rw [parseRegex_escape]
  simp [regexFoundAlt, regexFound_literal]

theorem prefixBy_eq_iff (p s : List Char) :
    prefixBy (chEq false) p s = true ↔ ∃ r, s = p ++ r := by
  induction p generalizing s with
  | nil => simp [prefixBy]
  | cons a p ih =>
      cases s with
      | nil => simp [prefixBy]
      | cons b s =>
          simp only [prefixBy]
          rw [show chEq false a b = (a == b) from by simp [chEq]]
          simp only [Bool.and_eq_true, beq_iff_eq, ih]
          constructor
          · rintro ⟨rfl, r, rfl⟩
            exact ⟨r, rfl⟩
          · rintro ⟨r, h⟩
            injection h with h1 h2
            exact ⟨h1.symm, r, h2⟩

/-- Grounding: the case-sensitive `substringBy` test is exactly literal
substring occurrence. -/
theorem substringBy_eq_iff (p s : List Char) :
    substringBy (chEq false) p s = true ↔ ∃ l r, s = l ++ p ++ r := by
  induction s with
  | nil =>
      simp only [substringBy, prefixBy_eq_iff]
      constructor
      · rintro ⟨r, h⟩
        exact ⟨[], r, by simpa using h⟩
      · rintro ⟨l, r, h⟩
        have h0 : (l ++ p) ++ r = [] := by simpa using h.symm
        have h1 := List.append_eq_nil.mp h0
        have h2 := List.append_eq_nil.mp h1.1
        exact ⟨[], by simp [h2.2]⟩
  | cons c s ih =>
      simp only [substringBy, Bool.or_eq_true, prefixBy_eq_iff, ih]
      constructor
      · rintro (⟨r, h⟩ | ⟨l, r, h⟩)
        · exact ⟨[], r, by simpa using h⟩
        · exact ⟨c :: l, r, by simp [h]⟩
      · rintro ⟨l, r, h⟩
        cases l with
        | nil => exact Or.inl ⟨r, by simpa using h⟩
        | cons x l =>
            injection h with h1 h2
            exact Or.inr ⟨l, r, h2⟩

/-! ## Store query helpers -/

theorem length_insertSorted (le : StoreRecord → StoreRecord → Bool) (r : StoreRecord)
    (l : List StoreRecord) : (insertSorted le r l).length = l.length + 1 := by
  induction l with
  | nil => rfl
  | cons x xs ih =>
      rw [insertSorted]
      by_cases h : le r x
      · simp [h]
      · simp [h, ih]

theorem length_sortRecords (le : StoreRecord → StoreRecord → Bool) (l : List StoreRecord) :
    (sortRecords le l).length = l.length := by
  induction l with
  | nil => rfl
  | cons r rs ih => rw [sortRecords, length_insertSorted, ih, List.length_cons]

theorem mem_insertSorted (le : StoreRecord → StoreRecord → Bool) (r a : StoreRecord)
    (l : List StoreRecord) : a ∈ insertSorted le r l ↔ a = r ∨ a ∈ l := by
  induction l with
  | nil => simp [insertSorted]
  | cons x xs ih =>
      rw [insertSorted]
      by_cases h : le r x
      · simp [h]
      · rw [if_neg h]
        simp only [List.mem_cons, ih]
        tauto

theorem mem_sortRecords (le : StoreRecord → StoreRecord → Bool) (a : StoreRecord)
    (l : List StoreRecord) : a ∈ sortRecords le l ↔ a ∈ l := by
  induction l with
  | nil => simp [sortRecords]
  | cons r rs ih => rw [sortRecords, mem_insertSorted]; simp [ih]

theorem mem_jsLimit {n : Nat} {l : List StoreRecord} {r : StoreRecord}
    (h : r ∈ jsLimit n l) : r ∈ l := by
  rw [jsLimit] at h
  by_cases hn : n = 0
  · rw [if_pos hn] at h
    exact h
  · rw [if_neg hn] at h
    exact List.take_subset _ _ h

theorem mem_runLimited {pred : StoreRecord → Bool} {store : List StoreRecord}
    {r : StoreRecord} (h : r ∈ runLimited pred store) : pred r = true ∧ r ∈ store := by
  have h1 : r ∈ sortCreatedDesc (store.filter pred) :=
    mem_jsLimit h
  have h2 : r ∈ store.filter pred := by
    rw [sortCreatedDesc] at h1
    exact (mem_sortRecords _ _ _).mp h1
  have := List.mem_filter.mp h2
  exact ⟨this.2, this.1⟩

theorem runLimited_eq_nil_iff (pred : StoreRecord → Bool) (store : List StoreRecord) :
    runLimited pred store = [] ↔ store.filter pred = [] := by
  rw [runLimited, jsLimit, if_neg (by simp [SEARCH_DEFAULTS_LIMIT])]
  rw [List.take_eq_nil_iff]
  constructor
  · rintro (h | h)
    · exact absurd h (by simp [SEARCH_DEFAULTS_LIMIT])
    · have hl : (sortCreatedDesc (store.filter pred)).length = 0 := by rw [h]; rfl
      rw [sortCreatedDesc, length_sortRecords] at hl
      exact List.length_eq_zero.mp hl
  · intro h
    right
    have h0 : (sortCreatedDesc (store.filter pred)).length = 0 := by
      rw [sortCreatedDesc, length_sortRecords, h]
      rfl
    exact List.length_eq_zero.mp h0

/-- Tier 1 hit: the resolver answers `direct` without consulting the oracle. -/
theorem naturalSearch_direct_eq (store : List StoreRecord) (user : Nat) (query : List Char)
    (oracle : OracleOutcome) (alt : RegexAlt)
    (hb : jsBlank query = false) (hp : parseRegex query = some alt)
    (hd : store.filter (directMatch user alt) ≠ []) :
    naturalSearch store user query oracle =
      ({ success := true, searchType := "direct",
         records := runLimited (directMatch user alt) store,
         count := (runLimited (directMatch user alt) store).length, processedQuery := none },
       { oracleCalled := false, tier3Attempted := false }) := by
  have hne : runLimited (directMatch user alt) store ≠ [] :=
    fun h => hd ((runLimited_eq_nil_iff _ _).mp h)
  have hlen : 0 < (runLimited (directMatch user alt) store).length :=
    List.length_pos.mpr hne
  rw [naturalSearch.eq_def, if_neg (by simp [hb]), hp]
  simp only [if_pos hlen]

/-- Tier 1 empty, oracle succeeds with castable date hints: the resolver
answers `enhanced`. -/
theorem naturalSearch_enhanced_eq (store : List StoreRecord) (user : Nat) (query : List Char)
    (sp : SearchParams) (alt : RegexAlt)
    (hb : jsBlank query = false) (hp : parseRegex query = some alt)
    (hd : store.filter (directMatch user alt) = [])
    (hdf : tier2DateInvalid sp = false) :
    naturalSearch store user query (Except.ok sp) =
      ({ success := true, searchType := "enhanced",
         records := runLimited (tier2Match user query sp) store,
         count := (runLimited (tier2Match user query sp) store).length,
         processedQuery := some sp },
       { oracleCalled := true, tier3Attempted := false }) := by
  have hnil : runLimited (directMatch user alt) store = [] :=
    (runLimited_eq_nil_iff _ _).mpr hd
  rw [naturalSearch.eq_def, if_neg (by simp [hb]), hp]
  simp only [hnil, List.length_nil, Nat.lt_irrefl, hdf]
  simp

/-- Tier 1 empty, oracle succeeds but a date hint fails the store's cast:
the rejection lands in the Tier 3 catch and the resolver answers
`fallback`. -/
theorem naturalSearch_dateCast_eq (store : List StoreRecord) (user : Nat) (query : List Char)
    (sp : SearchParams) (alt : RegexAlt)
    (hb : jsBlank query = false) (hp : parseRegex query = some alt)
    (hd : store.filter (directMatch user alt) = [])
    (hdf : tier2DateInvalid sp = true) :
    naturalSearch store user query (Except.ok sp) =
      ({ success := true, searchType := "fallback",
         records := tier3Records store user query,
         count := (tier3Records store user query).length, processedQuery := none },
       { oracleCalled := true, tier3Attempted := true }) := by
  have hnil : runLimited (directMatch user alt) store = [] :=
    (runLimited_eq_nil_iff _ _).mpr hd
  rw [naturalSearch.eq_def, if_neg (by simp [hb]), hp]
  simp only [hnil, List.length_nil, Nat.lt_irrefl, hdf]
  simp

/-- Tier 1 empty, oracle throws: the resolver answers `fallback`. -/
theorem naturalSearch_fallback_eq (store : List StoreRecord) (user : Nat) (query : List Char)
    (msg : String) (alt : RegexAlt)
    (hb : jsBlank query = false) (hp : parseRegex query = some alt)
    (hd : store.filter (directMatch user alt) = []) :
    naturalSearch store user query (Except.error msg) =
      ({ success := true, searchType := "fallback",
         records := tier3Records store user query,
         count := (tier3Records store user query).length, processedQuery := none },
       { oracleCalled := true, tier3Attempted := true }) := by
  have hnil : runLimited (directMatch user alt) store = [] :=
    (runLimited_eq_nil_iff _ _).mpr hd
  rw [naturalSearch.eq_def, if_neg (by simp [hb]), hp]
  simp only [hnil, List.length_nil, Nat.lt_irrefl]
  simp

/-! ## Claim theorems -/

/-- C5: `escapeRegex` escapes exactly the characters `. * + ? ^ $ \x7b \x7d ( ) | [ ] \`
(each occurrence prefixed with a backslash, so it parses as a literal atom),
and for every input string the escaped result, used as a matching pattern,
matches exactly the occurrences of the original string as a literal
substring: under the case flag of the store, the test coincides with
`substringBy`, and the case-sensitive `substringBy` is literal substring
occurrence. -/
theorem C5_escapeRegex_literal :
    (∀ c : Char,
      c ∈ ['.', '*', '+', '?', '^', '$', '\x7b', '\x7d', '(', ')', '|', '[', ']', '\\'] →
      escapeRegex [c] = ['\\', c]) ∧
    (∀ c : Char,
      c ∉ ['.', '*', '+', '?', '^', '$', '\x7b', '\x7d', '(', ')', '|', '[', ']', '\\'] →
      escapeRegex [c] = [c]) ∧
    (∀ (ci : Bool) (p s : List Char),
      regexTest ci (escapeRegex p) s = substringBy (chEq ci) p s) ∧
    (∀ p s : List Char, substringBy (chEq false) p s = true ↔ ∃ l r, s = l ++ p ++ r) := by
  refine ⟨?_, ?_, ?_, ?_⟩
  · intro c h
    simp [escapeRegex, if_pos (show c ∈ regexSpecialChars from h)]
  · intro c h
    simp [escapeRegex, if_neg (show c ∉ regexSpecialChars from h)]
  · exact fun ci p s => regexTest_escape ci p s
  · exact fun p s => substringBy_eq_iff p s

theorem C5_witness :
    escapeRegex ['*'] = ['\\', '*'] ∧ escapeRegex ['a'] = ['a'] :=
  ⟨C5_escapeRegex_literal.1 '*' (by decide),
   C5_escapeRegex_literal.2.1 'a' (by decide)⟩

/-- C1 as stated is false at Tier 1: the direct tier passes the RAW query
to the store's matcher (line 195), where `.` and `*` act as matching
syntax, so for query "a.b*c" the record titled exactly "a.b*c" is a
literal-substring match but is NOT matched (and hence not returned by the
direct tier — the resolution falls through past Tier 1). -/
theorem C1_counterexample :
    substringBy (chEq true) "a.b*c".data "a.b*c".data = true ∧
    regexTest true "a.b*c".data "a.b*c".data = false ∧
    (naturalSearch [⟨7, "note", "a.b*c".data, [], [], [], 0⟩] 7 "a.b*c".data
        (Except.error "oracle down")).1.searchType = "fallback" := by
  refine ⟨by decide, by decide, by decide⟩

/-- C1 amended: at Tiers 2 and 3 every user- or oracle-derived term is
escaped and matched as a literal (case-insensitive) substring of the four
text fields; at Tier 1 the raw query is interpreted as matching syntax,
not as a literal substring, so query "a.b*c" matches neither a title
exactly "a.b*c" nor "aXbYYYc" at Tier 1, while the escaped term matches
the title "a.b*c" and not "aXbYYYc". -/
theorem C1_amended_literal_tiers :
    (∀ (term : List Char) (r : StoreRecord),
      escapedTermMatch term r =
        (substringBy (chEq true) term r.title ||
          substringBy (chEq true) term r.geminiSummary ||
          substringBy (chEq true) term r.content ||
          r.tags.any (substringBy (chEq true) term))) ∧
    regexTest true "a.b*c".data "a.b*c".data = false ∧
    regexTest true "a.b*c".data "aXbYYYc".data = false ∧
    regexTest true (escapeRegex "a.b*c".data) "a.b*c".data = true ∧
    regexTest true (escapeRegex "a.b*c".data) "aXbYYYc".data = false := by
  refine ⟨?_, by decide, by decide, by decide, by decide⟩
  intro term r
  have hfun : regexTest true (escapeRegex term) = substringBy (chEq true) term :=
    funext fun s => regexTest_escape true term s
  simp [escapedTermMatch, regexTest_escape, hfun]

/-- C2: for every query (non-blank, store-accepted pattern) for which the
Tier 1 direct store query returns at least one record, the resolver answers
`searchType = "direct"` and the oracle is never invoked; conversely the
oracle is invoked only after Tier 1 completed and was observed zero-result. -/
theorem C2_direct_short_circuits (store : List StoreRecord) (user : Nat)
    (query : List Char) (oracle : OracleOutcome) (alt : RegexAlt)
    (hb : jsBlank query = false) (hp : parseRegex query = some alt) :
    (store.filter (directMatch user alt) ≠ [] →
      (naturalSearch store user query oracle).1.searchType = "direct" ∧
      (naturalSearch store user query oracle).2.oracleCalled = false) ∧
    ((naturalSearch store user query oracle).2.oracleCalled = true →
      store.filter (directMatch user alt) = []) := by
  constructor
  · intro hd
    rw [naturalSearch_direct_eq store user query oracle alt hb hp hd]
    exact ⟨rfl, rfl⟩
  · intro hcall
    by_cases hd : store.filter (directMatch user alt) = []
    · exact hd
    · rw [naturalSearch_direct_eq store user query oracle alt hb hp hd] at hcall
      exact absurd hcall (by simp)

theorem C2_witness :
    (naturalSearch [⟨3, "note", "xabcy".data, [], [], [], 0⟩] 3 "abc".data
        (Except.error "down")).1.searchType = "direct" ∧
    (naturalSearch [⟨3, "note", "xabcy".data, [], [], [], 0⟩] 3 "abc".data
        (Except.error "down")).2.oracleCalled = false :=
  (C2_direct_short_circuits [⟨3, "note", "xabcy".data, [], [], [], 0⟩] 3 "abc".data
      (Except.error "down")
      [[RItem.once (RAtom.lit 'a'), RItem.once (RAtom.lit 'b'), RItem.once (RAtom.lit 'c')]]
      (by decide) (by decide)).1 (by decide)

/-- C3: whenever Tier 1 finds nothing and the oracle call throws (with any
message), the resolver returns a SUCCESS response with
`searchType = "fallback"` whose records are exactly the Tier 3 result
built from `generateAllSearchPatterns` of the raw query — the oracle's
exception is never propagated to the caller. -/
theorem C3_oracle_failure_fallback (store : List StoreRecord) (user : Nat)
    (query : List Char) (msg : String) (alt : RegexAlt)
    (hb : jsBlank query = false) (hp : parseRegex query = some alt)
    (hd : store.filter (directMatch user alt) = []) :
    (naturalSearch store user query (Except.error msg)).1.success = true ∧
    (naturalSearch store user query (Except.error msg)).1.searchType = "fallback" ∧
    (naturalSearch store user query (Except.error msg)).1.records =
      runLimited (fun r => r.owner == user &&
        (generateAllSearchPatterns query).any (escapedTermMatch · r)) store ∧
    (naturalSearch store user query (Except.error msg)).2.tier3Attempted = true := by
  rw [naturalSearch_fallback_eq store user query msg alt hb hp hd]
  exact ⟨rfl, rfl, rfl, rfl⟩

theorem C3_witness :
    (naturalSearch [⟨3, "note", "helloworld".data, [], [], [], 0⟩] 3 "hello world".data
        (Except.error "boom")).1.success = true ∧
    (naturalSearch [⟨3, "note", "helloworld".data, [], [], [], 0⟩] 3 "hello world".data
        (Except.error "boom")).1.searchType = "fallback" ∧
    (naturalSearch [⟨3, "note", "helloworld".data, [], [], [], 0⟩] 3 "hello world".data
        (Except.error "boom")).1.count = 1 :=
  ⟨(C3_oracle_failure_fallback [⟨3, "note", "helloworld".data, [], [], [], 0⟩] 3
      "hello world".data "boom" [literalItems "hello world".data]
      (by decide) (by decide) (by decide)).1,
   (C3_oracle_failure_fallback [⟨3, "note", "helloworld".data, [], [], [], 0⟩] 3
      "hello world".data "boom" [literalItems "hello world".data]
      (by decide) (by decide) (by decide)).2.1,
   by decide⟩

/-- C4 as stated is false: an oracle SUCCESS whose hints carry a malformed
date string still ends in Tier 3 — the Invalid Date bound fails the
store's `Date` cast at `Record.find`, the rejection lands in the same
catch as an oracle failure (line 333), and the resolver answers
`fallback` with Tier 3 attempted. -/
theorem C4_counterexample :
    (naturalSearch [] 3 "abc".data
        (Except.ok ⟨["abc".data], [], some ⟨some none, none⟩⟩)).1.searchType = "fallback" ∧
    (naturalSearch [] 3 "abc".data
        (Except.ok ⟨["abc".data], [], some ⟨some none, none⟩⟩)).2.tier3Attempted = true := by
  refine ⟨by decide, by decide⟩

/-- C4 amended: whenever Tier 1 finds nothing and the oracle call succeeds
with hints whose date bounds (when present) parse to valid dates, the
resolver answers `searchType = "enhanced"` with the oracle's structured
hints embedded (`processedQuery = some sp`), the records being the Tier 2
store query result — even when that result is empty — and Tier 3 is never
attempted. -/
theorem C4_enhanced_terminal (store : List StoreRecord) (user : Nat)
    (query : List Char) (sp : SearchParams) (alt : RegexAlt)
    (hb : jsBlank query = false) (hp : parseRegex query = some alt)
    (hd : store.filter (directMatch user alt) = [])
    (hdf : tier2DateInvalid sp = false) :
    (naturalSearch store user query (Except.ok sp)).1.success = true ∧
    (naturalSearch store user query (Except.ok sp)).1.searchType = "enhanced" ∧
    (naturalSearch store user query (Except.ok sp)).1.processedQuery = some sp ∧
    (naturalSearch store user query (Except.ok sp)).1.records =
      runLimited (tier2Match user query sp) store ∧
    (naturalSearch store user query (Except.ok sp)).1.count =
      (runLimited (tier2Match user query sp) store).length ∧
    (naturalSearch store user query (Except.ok sp)).2.tier3Attempted = false := by
  rw [naturalSearch_enhanced_eq store user query sp alt hb hp hd hdf]
  exact ⟨rfl, rfl, rfl, rfl, rfl, rfl⟩

theorem C4_witness :
    (naturalSearch [⟨3, "note", "zzz".data, [], [], [], 0⟩] 3 "abc".data
        (Except.ok ⟨[], [], none⟩)).1.searchType = "enhanced" ∧
    (naturalSearch [⟨3, "note", "zzz".data, [], [], [], 0⟩] 3 "abc".data
        (Except.ok ⟨[], [], none⟩)).1.count = 0 ∧
    (naturalSearch [⟨3, "note", "zzz".data, [], [], [], 0⟩] 3 "abc".data
        (Except.ok ⟨[], [], none⟩)).2.tier3Attempted = false :=
  ⟨(C4_enhanced_terminal [⟨3, "note", "zzz".data, [], [], [], 0⟩] 3 "abc".data
      ⟨[], [], none⟩ [literalItems "abc".data] (by decide) (by decide) (by decide)
      (by decide)).2.1,
   by decide,
   (C4_enhanced_terminal [⟨3, "note", "zzz".data, [], [], [], 0⟩] 3 "abc".data
      ⟨[], [], none⟩ [literalItems "abc".data] (by decide) (by decide) (by decide)
      (by decide)).2.2.2.2.2⟩

/-- C9: owner isolation — every record any tier of `naturalSearch` returns,
and every record `advancedSearch` returns, is owned by the requesting user;
a record with a different owner is never in the result set. -/
theorem C9_owner_isolation :
    (∀ (store : List StoreRecord) (user : Nat) (query : List Char) (oracle : OracleOutcome)
        (r : StoreRecord),
      r ∈ (naturalSearch store user query oracle).1.records → r.owner = user) ∧
    (∀ (store : List StoreRecord) (user : Nat) (p : AdvParams) (alt : RegexAlt)
        (r : StoreRecord),
      r ∈ (advData store user p alt).records → r.owner = user) := by
  constructor
  · intro store user query oracle r h
    by_cases hb : jsBlank query = true
    · rw [naturalSearch.eq_def, if_pos hb] at h
      simp at h
    · have hbf : jsBlank query = false := by simpa using hb
      cases hp : parseRegex query with
      | none =>
          rw [naturalSearch.eq_def, if_neg hb, hp] at h
          simp at h
      | some alt =>
          by_cases hd : store.filter (directMatch user alt) = []
          · cases oracle with
            | ok sp =>
                by_cases hdf : tier2DateInvalid sp = true
                · rw [naturalSearch_dateCast_eq store user query sp alt hbf hp hd hdf] at h
                  have h1 : r ∈ runLimited (tier3Match user query) store := h
                  have h2 := (mem_runLimited h1).1
                  simp only [tier3Match, Bool.and_eq_true, beq_iff_eq] at h2
                  exact h2.1
                · rw [naturalSearch_enhanced_eq store user query sp alt hbf hp hd
                      (by simpa using hdf)] at h
                  have h1 : r ∈ runLimited (tier2Match user query sp) store := h
                  have h2 := (mem_runLimited h1).1
                  simp only [tier2Match, Bool.and_eq_true, beq_iff_eq] at h2
                  exact h2.1.1.1
            | error msg =>
                rw [naturalSearch_fallback_eq store user query msg alt hbf hp hd] at h
                have h1 : r ∈ runLimited (tier3Match user query) store := h
                have h2 := (mem_runLimited h1).1
                simp only [tier3Match, Bool.and_eq_true, beq_iff_eq] at h2
                exact h2.1
          · rw [naturalSearch_direct_eq store user query oracle alt hbf hp hd] at h
            have h1 : r ∈ runLimited (directMatch user alt) store := h
            have h2 := (mem_runLimited h1).1
            simp only [directMatch, Bool.and_eq_true, beq_iff_eq] at h2
            exact h2.1
  · intro store user p alt r h
    simp only [advData] at h
    have h1 : r ∈ (advSort p.sortBy p.sortOrder
        (store.filter (advMatch user p alt))).drop
          ((p.page.getD SEARCH_DEFAULTS_PAGE - 1) * p.limit.getD SEARCH_DEFAULTS_LIMIT) :=
      mem_jsLimit h
    have h2 : r ∈ advSort p.sortBy p.sortOrder (store.filter (advMatch user p alt)) :=
      List.drop_subset _ _ h1
    have h3 : r ∈ store.filter (advMatch user p alt) := by
      rw [advSort] at h2
      exact (mem_sortRecords _ _ _).mp h2
    have h4 := (List.mem_filter.mp h3).2
    simp only [advMatch, Bool.and_eq_true, beq_iff_eq] at h4
    exact h4.1.1.1.1.1

theorem C9_witness :
    (⟨3, "note", "xabcy".data, [], [], [], 0⟩ : StoreRecord).owner = 3 :=
  C9_owner_isolation.1 [⟨3, "note", "xabcy".data, [], [], [], 0⟩] 3 "abc".data
    (Except.error "down") ⟨3, "note", "xabcy".data, [], [], [], 0⟩ (by decide)

/-- C7: the advancedSearch pagination descriptor satisfies
`skip = (page-1)*limit`, `totalPages = ceil(totalRecords/limit)` (for a
positive limit), `hasNextPage = (skip + records.length < totalRecords)`,
`hasPreviousPage = (page > 1)`; in particular with 45 matching records and
limit 20, page 1 gives totalPages 3, hasNextPage and no previous page, and
page 3 returns 5 records, no next page, and a previous page. -/
theorem C7_pagination (store : List StoreRecord) (user : Nat) (p : AdvParams) (alt : RegexAlt)
    (hp : advKwAlt p = some alt) (hdate : advDateInvalid p = false)
    (hl : 0 < p.limit.getD SEARCH_DEFAULTS_LIMIT) :
    (advancedSearch store user p).data = some (advData store user p alt) ∧
    (advData store user p alt).pagination.totalRecords =
      (store.filter (advMatch user p alt)).length ∧
    (advData store user p alt).pagination.currentPage = p.page.getD SEARCH_DEFAULTS_PAGE ∧
    (advData store user p alt).pagination.totalPages =
      JsNum.finite (((store.filter (advMatch user p alt)).length +
        p.limit.getD SEARCH_DEFAULTS_LIMIT - 1) / p.limit.getD SEARCH_DEFAULTS_LIMIT) ∧
    (advData store user p alt).pagination.hasNextPage =
      decide ((p.page.getD SEARCH_DEFAULTS_PAGE - 1) * p.limit.getD SEARCH_DEFAULTS_LIMIT +
        (advData store user p alt).records.length <
        (advData store user p alt).pagination.totalRecords) ∧
    (advData store user p alt).pagination.hasPreviousPage =
      decide (1 < p.page.getD SEARCH_DEFAULTS_PAGE) ∧
    (advData store user p alt).records.length =
      min (p.limit.getD SEARCH_DEFAULTS_LIMIT)
        ((store.filter (advMatch user p alt)).length -
          (p.page.getD SEARCH_DEFAULTS_PAGE - 1) * p.limit.getD SEARCH_DEFAULTS_LIMIT) ∧
    ((store.filter (advMatch user p alt)).length = 45 → p.limit = some 20 →
      ((p.page = some 1 →
        (advData store user p alt).pagination.totalPages = JsNum.finite 3 ∧
        (advData store user p alt).pagination.hasNextPage = true ∧
        (advData store user p alt).pagination.hasPreviousPage = false) ∧
       (p.page = some 3 →
        (advData store user p alt).records.length = 5 ∧
        (advData store user p alt).pagination.hasNextPage = false ∧
        (advData store user p alt).pagination.hasPreviousPage = true))) := by
  have hlim : p.limit.getD SEARCH_DEFAULTS_LIMIT ≠ 0 := Nat.pos_iff_ne_zero.mp hl
  have hTP : (advData store user p alt).pagination.totalPages =
      JsNum.finite (((store.filter (advMatch user p alt)).length +
        p.limit.getD SEARCH_DEFAULTS_LIMIT - 1) / p.limit.getD SEARCH_DEFAULTS_LIMIT) := by
    show jsCeilDiv (store.filter (advMatch user p alt)).length
      (p.limit.getD SEARCH_DEFAULTS_LIMIT) = _
    rw [jsCeilDiv, if_neg hlim]
  have hLen : (advData store user p alt).records.length =
      min (p.limit.getD SEARCH_DEFAULTS_LIMIT)
        ((store.filter (advMatch user p alt)).length -
          (p.page.getD SEARCH_DEFAULTS_PAGE - 1) * p.limit.getD SEARCH_DEFAULTS_LIMIT) := by
    show (jsLimit (p.limit.getD SEARCH_DEFAULTS_LIMIT)
        ((advSort p.sortBy p.sortOrder (store.filter (advMatch user p alt))).drop
          ((p.page.getD SEARCH_DEFAULTS_PAGE - 1) * p.limit.getD SEARCH_DEFAULTS_LIMIT))).length = _
    rw [jsLimit, if_neg hlim, List.length_take, List.length_drop, advSort, length_sortRecords]
  have hNext : (advData store user p alt).pagination.hasNextPage =
      decide ((p.page.getD SEARCH_DEFAULTS_PAGE - 1) * p.limit.getD SEARCH_DEFAULTS_LIMIT +
        (advData store user p alt).records.length <
        (advData store user p alt).pagination.totalRecords) := rfl
  have hTR : (advData store user p alt).pagination.totalRecords =
      (store.filter (advMatch user p alt)).length := rfl
  have hPrev : (advData store user p alt).pagination.hasPreviousPage =
      decide (1 < p.page.getD SEARCH_DEFAULTS_PAGE) := rfl
  refine ⟨?_, rfl, rfl, hTP, hNext, rfl, hLen, ?_⟩
  · rw [advancedSearch.eq_def, hp]
    simp [hdate]
  · intro h45 h20
    have hL : p.limit.getD SEARCH_DEFAULTS_LIMIT = 20 := by rw [h20]; rfl
    constructor
    · intro hpage
      have hPg : p.page.getD SEARCH_DEFAULTS_PAGE = 1 := by rw [hpage]; rfl
      refine ⟨?_, ?_, ?_⟩
      · simp only [hTP, h45, hL]
      · simp only [hNext, hLen, hTR, h45, hL, hPg]
        decide
      · simp only [hPrev, hPg]
        decide
    · intro hpage
      have hPg : p.page.getD SEARCH_DEFAULTS_PAGE = 3 := by rw [hpage]; rfl
      refine ⟨?_, ?_, ?_⟩
      · simp only [hLen, h45, hL, hPg]
        decide
      · simp only [hNext, hLen, hTR, h45, hL, hPg]
        decide
      · simp only [hPrev, hPg]
        decide

theorem C7_witness :
    (advData (List.replicate 45 (⟨3, "note", "t".data, [], [], [], 0⟩ : StoreRecord)) 3
        { keywords := [], types := [], dateFrom := none, dateTo := none, tags := [],
          limit := some 20, page := some 1, sortBy := "createdAt", sortOrder := -1 }
        []).pagination.totalPages = JsNum.finite 3 ∧
    (advData (List.replicate 45 (⟨3, "note", "t".data, [], [], [], 0⟩ : StoreRecord)) 3
        { keywords := [], types := [], dateFrom := none, dateTo := none, tags := [],
          limit := some 20, page := some 1, sortBy := "createdAt", sortOrder := -1 }
        []).pagination.hasNextPage = true ∧
    (advData (List.replicate 45 (⟨3, "note", "t".data, [], [], [], 0⟩ : StoreRecord)) 3
        { keywords := [], types := [], dateFrom := none, dateTo := none, tags := [],
          limit := some 20, page := some 3, sortBy := "createdAt", sortOrder := -1 }
        []).records.length = 5 :=
  ⟨((C7_pagination (List.replicate 45 (⟨3, "note", "t".data, [], [], [], 0⟩ : StoreRecord)) 3
      { keywords := [], types := [], dateFrom := none, dateTo := none, tags := [],
        limit := some 20, page := some 1, sortBy := "createdAt", sortOrder := -1 }
      [] (by decide) (by decide) (by decide)).2.2.2.2.2.2.2 (by decide) rfl).1 rfl |>.1,
   ((C7_pagination (List.replicate 45 (⟨3, "note", "t".data, [], [], [], 0⟩ : StoreRecord)) 3
      { keywords := [], types := [], dateFrom := none, dateTo := none, tags := [],
        limit := some 20, page := some 1, sortBy := "createdAt", sortOrder := -1 }
      [] (by decide) (by decide) (by decide)).2.2.2.2.2.2.2 (by decide) rfl).1 rfl |>.2.1,
   ((C7_pagination (List.replicate 45 (⟨3, "note", "t".data, [], [], [], 0⟩ : StoreRecord)) 3
      { keywords := [], types := [], dateFrom := none, dateTo := none, tags := [],
        limit := some 20, page := some 3, sortBy := "createdAt", sortOrder := -1 }
      [] (by decide) (by decide) (by decide)).2.2.2.2.2.2.2 (by decide) rfl).2 rfl |>.1⟩

/-- C10: when the caller explicitly supplies `limit = 0` the destructuring
default 20 is not substituted, `skip = (page-1)*0 = 0`, the handler still
returns a success response, and `totalPages = Math.ceil(total/0)` is a
division by zero: `Infinity` when any record matches, `NaN` when none does
— in either case not a natural number. -/
theorem C10_limit_zero_unguarded (store : List StoreRecord) (user : Nat) (p : AdvParams)
    (alt : RegexAlt) (hp : advKwAlt p = some alt) (hdate : advDateInvalid p = false)
    (h0 : p.limit = some 0) :
    (advancedSearch store user p).success = true ∧
    (∀ n : Nat, (advData store user p alt).pagination.totalPages ≠ JsNum.finite n) := by
  constructor
  · rw [advancedSearch.eq_def, hp]
    simp [hdate]
  · intro n
    have hL : p.limit.getD SEARCH_DEFAULTS_LIMIT = 0 := by rw [h0]; rfl
    show jsCeilDiv (store.filter (advMatch user p alt)).length
      (p.limit.getD SEARCH_DEFAULTS_LIMIT) ≠ _
    rw [hL, jsCeilDiv, if_pos rfl]
    by_cases hT : (store.filter (advMatch user p alt)).length = 0 <;> simp [hT]

theorem C10_witness :
    (advancedSearch [] 3
        { keywords := [], types := [], dateFrom := none, dateTo := none, tags := [],
          limit := some 0, page := some 1, sortBy := "createdAt", sortOrder := -1 }).success = true ∧
    (advData ([] : List StoreRecord) 3
        { keywords := [], types := [], dateFrom := none, dateTo := none, tags := [],
          limit := some 0, page := some 1, sortBy := "createdAt", sortOrder := -1 }
        []).pagination.totalPages ≠ JsNum.finite 0 :=
  ⟨(C10_limit_zero_unguarded [] 3
      { keywords := [], types := [], dateFrom := none, dateTo := none, tags := [],
        limit := some 0, page := some 1, sortBy := "createdAt", sortOrder := -1 }
      [] (by decide) (by decide) rfl).1,
   (C10_limit_zero_unguarded [] 3
      { keywords := [], types := [], dateFrom := none, dateTo := none, tags := [],
        limit := some 0, page := some 1, sortBy := "createdAt", sortOrder := -1 }
      [] (by decide) (by decide) rfl).2 0⟩

/-- C8 is the intent (and the spec), but the code does not implement it:
`new Date(str)` never throws, so the `try/catch` at lines 289-304 is dead
and a malformed `from` bound is NOT omitted — an Invalid Date enters the
`$gte` bound of the store filter, the store rejects the cast at
`Record.find`, and the WHOLE Tier 2 attempt is aborted into Tier 3.  At
the failing input `dateFilters = { from: <malformed>, to: <t=100> }` the
bound is present as Invalid Date, the resolver answers `fallback`, and the
record (createdAt 50) satisfying the well-formed `to` bound and the text
filter is lost; under the claimed behaviour (only the malformed bound
omitted) the same Tier 2 query answers `enhanced` and returns it. -/
theorem C8_malformed_date_not_omitted :
    (buildDateQuery ⟨some none, some (some 100)⟩).gte = some JsDate.invalid ∧
    tier2DateInvalid ⟨["abc".data], [], some ⟨some none, some (some 100)⟩⟩ = true ∧
    (naturalSearch [⟨3, "note", "abc".data, [], [], [], 50⟩] 3 "zzz".data
        (Except.ok ⟨["abc".data], [], some ⟨some none, some (some 100)⟩⟩)).1.searchType =
      "fallback" ∧
    (naturalSearch [⟨3, "note", "abc".data, [], [], [], 50⟩] 3 "zzz".data
        (Except.ok ⟨["abc".data], [], some ⟨some none, some (some 100)⟩⟩)).1.count = 0 ∧
    (naturalSearch [⟨3, "note", "abc".data, [], [], [], 50⟩] 3 "zzz".data
        (Except.ok ⟨["abc".data], [], some ⟨none, some (some 100)⟩⟩)).1.searchType =
      "enhanced" ∧
    (naturalSearch [⟨3, "note", "abc".data, [], [], [], 50⟩] 3 "zzz".data
        (Except.ok ⟨["abc".data], [], some ⟨none, some (some 100)⟩⟩)).1.count = 1 := by
  refine ⟨rfl, by decide, by decide, by decide, by decide, by decide⟩

/-! ## C6: claim-side definitions for the pattern set -/

/-- Definition following the claim's words (C6): the deduplicated set of
the query; its lowercase form; its whitespace-stripped forms when it
contains a space; each filtered word; and — with NO guard on the number of
words — for every contiguous word sub-sequence whose joined phrase exceeds
3 characters, both the phrase and its whitespace-stripped form. -/
def specClaimPatterns (query : List Char) : List (List Char) :=
  let base := [query, toLowerList query]
  let base2 := base ++
    (if query.contains ' ' then [stripWs query, stripWs (toLowerList query)] else [])
  let words := queryWords query
  let phrases :=
    (List.range words.length).flatMap fun i =>
      (List.range (words.length - i)).flatMap fun k =>
        let phrase := joinSp ((words.drop i).take (k + 1))
        if 3 < phrase.length then [phrase, stripWs phrase] else []
  (base2 ++ words ++ phrases).dedup

/-- C6 as stated is false: the code runs the phrase enumeration only when
at least two filtered words exist (`words.length > 1`, line 415), while the
claim's unguarded enumeration also emits the whitespace-stripped form of a
single word containing embedded non-space whitespace.  For the query
"a\tbcd" (one filtered word holding a tab) the claim's set contains "abcd"
but `generateAllSearchPatterns` does not produce it. -/
theorem C6_counterexample :
    "abcd".data ∈ specClaimPatterns "a\tbcd".data ∧
    "abcd".data ∉ generateAllSearchPatterns "a\tbcd".data := by
  refine ⟨by decide, by decide⟩

/-- Membership form of the claim's clauses, with the amendment: the phrase
clause applies only when there are at least two filtered words. -/
def specAmendedMember (query p : List Char) : Prop :=
  p = query ∨ p = toLowerList query ∨
  (query.contains ' ' = true ∧ (p = stripWs query ∨ p = stripWs (toLowerList query))) ∨
  p ∈ queryWords query ∨
  (2 ≤ (queryWords query).length ∧ ∃ i j, i < j ∧ j ≤ (queryWords query).length ∧
    3 < (joinSp (((queryWords query).drop i).take (j - i))).length ∧
    (p = joinSp (((queryWords query).drop i).take (j - i)) ∨
      p = stripWs (joinSp (((queryWords query).drop i).take (j - i)))))

theorem mem_phrasePatterns (ws : List (List Char)) (p : List Char) :
    (p ∈ (List.range ws.length).flatMap fun i =>
      (List.range (ws.length - i)).flatMap fun k =>
        let phrase := joinSp ((ws.drop i).take (k + 1))
        if 3 < phrase.length then [phrase, stripWs phrase] else []) ↔
    ∃ i j, i < j ∧ j ≤ ws.length ∧ 3 < (joinSp ((ws.drop i).take (j - i))).length ∧
      (p = joinSp ((ws.drop i).take (j - i)) ∨ p = stripWs (joinSp ((ws.drop i).take (j - i)))) := by
  simp only [List.mem_flatMap, List.mem_range]
  constructor
  · rintro ⟨i, hi, k, hk, hmem⟩
    by_cases h3 : 3 < (joinSp ((ws.drop i).take (k + 1))).length
    · rw [if_pos h3] at hmem
      have hji : i + k + 1 - i = k + 1 := by omega
      refine ⟨i, i + k + 1, by omega, by omega, ?_, ?_⟩
      · rw [hji]
        exact h3
      · rw [hji]
        simpa using hmem
    · rw [if_neg h3] at hmem
      simp at hmem
  · rintro ⟨i, j, hij, hjn, h3, hp⟩
    have hk1 : j - i - 1 + 1 = j - i := by omega
    refine ⟨i, by omega, j - i - 1, by omega, ?_⟩
    rw [hk1, if_pos h3]
    simpa using hp

/-- C6 amended: for every query string, `generateAllSearchPatterns` returns
exactly (as a set) the claim's clauses — the query; its lowercase form; its
whitespace-stripped forms when it contains a space; each filtered word —
with the phrase clause applying only when there are AT LEAST TWO filtered
words: every contiguous word sub-sequence whose joined phrase exceeds 3
characters contributes the phrase and its whitespace-stripped form. -/
theorem C6_amended_pattern_set (query p : List Char) :
    p ∈ generateAllSearchPatterns query ↔ specAmendedMember query p := by
  have hiff : (1 < (queryWords query).length) ↔ (2 ≤ (queryWords query).length) := by omega
  simp only [generateAllSearchPatterns, specAmendedMember, List.mem_dedup, List.mem_append,
    List.mem_cons, List.not_mem_nil, or_false]
  by_cases hsp : query.contains ' ' = true
  · by_cases hw : 1 < (queryWords query).length
    · rw [if_pos hsp, if_pos hw, and_iff_right (hiff.mp hw)]
      simp only [hsp, List.mem_cons, List.not_mem_nil, or_false, mem_phrasePatterns,
        eq_self_iff_true, true_and]
      itauto
    · rw [if_pos hsp, if_neg hw]
      have h2 : ¬ (2 ≤ (queryWords query).length) := fun h => hw (hiff.mpr h)
      simp only [hsp, List.mem_cons, List.not_mem_nil, or_false, eq_self_iff_true, true_and, h2,
        false_and]
      itauto
  · by_cases hw : 1 < (queryWords query).length
    · rw [if_neg hsp, if_pos hw, and_iff_right (hiff.mp hw)]
      simp only [hsp, List.mem_cons, List.not_mem_nil, or_false, mem_phrasePatterns,
        Bool.false_eq_true, false_and]
      itauto
    · rw [if_neg hsp, if_neg hw]
      have h2 : ¬ (2 ≤ (queryWords query).length) := fun h => hw (hiff.mpr h)
      simp only [hsp, List.mem_cons, List.not_mem_nil, or_false, Bool.false_eq_true, false_and, h2]
      itauto
